import Mathlib

/-!
Shallow embedding of the pngme chunk codec (src/chunk_type.rs, src/chunk.rs).
Bytes are modelled as `Nat` (values `< 256` where the Rust type is `u8`);
`u32`/`usize` arithmetic is explicit over `Nat`.
-/

set_option maxRecDepth 4000

namespace Pngme

/-- Rust's `u8::is_ascii_alphabetic`. -/
def isAsciiAlphabetic (b : Nat) : Bool :=
  (65 ≤ b && b ≤ 90) || (97 ≤ b && b ≤ 122)

/-- The four raw tag bytes of `ChunkType([u8; 4])` from src/chunk_type.rs. -/
structure ChunkType where
  b0 : Nat
  b1 : Nat
  b2 : Nat
  b3 : Nat
deriving DecidableEq, Repr

/-- `ChunkType::bytes`: the raw 4-byte tag as a list. -/
def ChunkType.bytes (t : ChunkType) : List Nat :=
  [t.b0, t.b1, t.b2, t.b3]

/-- `ChunkType::is_critical`: `self.0[0] & 32 == 0`. -/
def ChunkType.is_critical (t : ChunkType) : Bool :=
  t.b0 &&& 32 == 0

/-- `ChunkType::is_public`: `self.0[1] & 32 == 0`. -/
def ChunkType.is_public (t : ChunkType) : Bool :=
  t.b1 &&& 32 == 0

/-- `ChunkType::is_reserved_bit_valid`: `self.0[2] & 32 == 0`. -/
def ChunkType.is_reserved_bit_valid (t : ChunkType) : Bool :=
  t.b2 &&& 32 == 0

/-- `ChunkType::is_safe_to_copy`: `self.0[3] & 32 == 32`. -/
def ChunkType.is_safe_to_copy (t : ChunkType) : Bool :=
  t.b3 &&& 32 == 32

/-- `ChunkType::is_valid`: returns `is_reserved_bit_valid()`. -/
def ChunkType.is_valid (t : ChunkType) : Bool :=
  t.is_reserved_bit_valid

/-- Error kinds of `ChunkTypeParseError` (the Rust code tags failures with a
message string; the two message shapes are the two constructors here). -/
inductive ChunkTypeError where
  | invalidChunkType
  | invalidLength
deriving DecidableEq, Repr

/-- `impl TryFrom<[u8; 4]> for ChunkType`: fails iff any byte is not an
ASCII letter, as in `value.iter().any(|b| !b.is_ascii_alphabetic())`. -/
def ChunkType.tryFrom (b0 b1 b2 b3 : Nat) : Except ChunkTypeError ChunkType :=
  if !(isAsciiAlphabetic b0) || !(isAsciiAlphabetic b1)
      || !(isAsciiAlphabetic b2) || !(isAsciiAlphabetic b3) then
    .error .invalidChunkType
  else
    .ok ⟨b0, b1, b2, b3⟩

/-- `impl FromStr for ChunkType`: a Rust `&str` is modelled by its UTF-8 byte
list (`s.len()` in the source is the byte length); on length 4 the bytes are
copied into the array and the call delegates to `ChunkType::try_from`. -/
def ChunkType.fromStr (s : List Nat) : Except ChunkTypeError ChunkType :=
  match s with
  | [c0, c1, c2, c3] => ChunkType.tryFrom c0 c1 c2 c3
  | _ => .error .invalidLength

/-! CRC-32/ISO-HDLC as computed by `crc::Crc::<u32>::new(&crc::CRC_32_ISO_HDLC)`
in `Chunk::crc`: reflected algorithm, polynomial `0xEDB88320`,
init `0xFFFFFFFF`, final xor `0xFFFFFFFF`. -/

/-- One bit step of the reflected CRC-32 computation. -/
def crc32Step (c : Nat) : Nat :=
  if c % 2 == 1 then (c / 2) ^^^ 0xEDB88320 else c / 2

/-- Feed one byte into the running CRC-32 state (xor in, then 8 bit steps). -/
def crc32Byte (c b : Nat) : Nat :=
  crc32Step (crc32Step (crc32Step (crc32Step
    (crc32Step (crc32Step (crc32Step (crc32Step (c ^^^ b))))))))

/-- CRC-32/ISO-HDLC checksum of a byte list. -/
def crc32 (data : List Nat) : Nat :=
  (data.foldl crc32Byte 0xFFFFFFFF) ^^^ 0xFFFFFFFF

/-- The `Chunk` struct from src/chunk.rs: a `ChunkType` plus payload bytes. -/
structure Chunk where
  chunk_type : ChunkType
  data : List Nat
deriving DecidableEq, Repr

/-- `Chunk::new`. -/
def Chunk.new (chunk_type : ChunkType) (data : List Nat) : Chunk :=
  ⟨chunk_type, data⟩

/-- `Chunk::length`: `self.data.len()` (a `usize`). -/
def Chunk.length (c : Chunk) : Nat :=
  c.data.length

/-- `Chunk::crc`: checksum over `chunk_type.bytes()` chained with `data`. -/
def Chunk.crc (c : Chunk) : Nat :=
  crc32 (c.chunk_type.bytes ++ c.data)

/-- Big-endian byte list of width `w` for `n` (`n.to_be_bytes()` for the
`w`-byte unsigned integer type holding `n`). -/
def natToBE : Nat → Nat → List Nat
  | 0, _ => []
  | w + 1, n => natToBE w (n / 256) ++ [n % 256]

/-- `u32::from_be_bytes` on a 4-byte list. -/
def u32FromBE (l : List Nat) : Nat :=
  match l with
  | [a, b, c, d] => ((a * 256 + b) * 256 + c) * 256 + d
  | _ => 0

/-- `Chunk::as_bytes` exactly as written in src/chunk.rs lines 40-45:
`self.length().to_be_bytes()` (the length is a `usize`, 8 bytes big-endian on
the 64-bit target), then the payload bytes, then the 4 CRC bytes.  The source
does not append the chunk-type bytes. -/
def Chunk.as_bytes (c : Chunk) : List Nat :=
  natToBE 8 c.length ++ c.data ++ natToBE 4 c.crc

/-- Modelled from the spec (§4.2 `as_bytes`, §6 wire format), for comparison
with `Chunk.as_bytes`: the on-disk chunk record, `4-byte big-endian length ·
4 type bytes · payload · 4-byte big-endian CRC`. -/
def chunkRecordSpec (c : Chunk) : List Nat :=
  natToBE 4 c.length ++ c.chunk_type.bytes ++ c.data ++ natToBE 4 c.crc

/-- Error kinds of `ChunkParseError` in src/chunk.rs (tagged by message). -/
inductive ChunkError where
  | invalidChunkType
  | tooShort
  | checksumMismatch
deriving DecidableEq, Repr

/-- Outcome of `Chunk::try_from`: `Ok`, an `Err`, or a Rust panic. -/
inductive ParseOutcome where
  | ok : Chunk → ParseOutcome
  | err : ChunkError → ParseOutcome
  | panicked : ParseOutcome
deriving DecidableEq, Repr

/-- `impl TryFrom<&[u8]> for Chunk` (src/chunk.rs lines 64-98).
`split_at_checked(4)` succeeds iff the slice has at least 4 bytes (matched
here by four cons cells); then `ChunkType::try_from` runs on the first 4
bytes; then `raw_data[..raw_data.len() - 4]` and `raw_data[raw_data.len() -
4..]` are taken — when `raw_data` has fewer than 4 bytes the `usize`
subtraction underflows and the indexing panics, modelled by `.panicked`;
finally the stored big-endian checksum is compared with the recomputed CRC. -/
def Chunk.tryFrom (value : List Nat) : ParseOutcome :=
  match value with
  | b0 :: b1 :: b2 :: b3 :: rawData =>
    match ChunkType.tryFrom b0 b1 b2 b3 with
    | .error _ => .err .invalidChunkType
    | .ok chunkType =>
      if rawData.length < 4 then
        .panicked
      else
        let chunk := Chunk.new chunkType (rawData.take (rawData.length - 4))
        let checksum := u32FromBE (rawData.drop (rawData.length - 4))
        if chunk.crc ≠ checksum then .err .checksumMismatch
        else .ok chunk
  | _ => .err .tooShort

/-! Helper lemmas about the embedded definitions. -/

/-- An ASCII-alphabetic byte is below 256. -/
lemma isAsciiAlphabetic_lt (b : Nat) (h : isAsciiAlphabetic b = true) : b < 256 := by
  simp only [isAsciiAlphabetic, Bool.or_eq_true, Bool.and_eq_true, decide_eq_true_eq] at h
  omega

/-- Xor of two 32-bit values is a 32-bit value. -/
lemma xor_lt_u32 {x y : Nat} (hx : x < 2 ^ 32) (hy : y < 2 ^ 32) : x ^^^ y < 2 ^ 32 :=
  Nat.bitwise_lt hx hy

/-- `crc32Step` preserves the 32-bit bound. -/
lemma crc32Step_lt {c : Nat} (hc : c < 2 ^ 32) : crc32Step c < 2 ^ 32 := by
  unfold crc32Step
  split
  · exact xor_lt_u32 (by omega) (by norm_num)
  · omega

/-- `crc32Byte` preserves the 32-bit bound for byte input. -/
lemma crc32Byte_lt {c b : Nat} (hc : c < 2 ^ 32) (hb : b < 256) :
    crc32Byte c b < 2 ^ 32 := by
  unfold crc32Byte
  exact crc32Step_lt (crc32Step_lt (crc32Step_lt (crc32Step_lt (crc32Step_lt
    (crc32Step_lt (crc32Step_lt (crc32Step_lt (xor_lt_u32 hc (by omega)))))))))

/-- The running CRC state stays below `2 ^ 32` over any byte list. -/
lemma crc32_foldl_lt (l : List Nat) (h : ∀ b ∈ l, b < 256) :
    ∀ c, c < 2 ^ 32 → l.foldl crc32Byte c < 2 ^ 32 := by
  induction l with
  | nil => intro c hc; simpa using hc
  | cons a l ih =>
    intro c hc
    exact ih (fun b hb => h b (List.mem_cons_of_mem _ hb)) _
      (crc32Byte_lt hc (h a (List.mem_cons_self _ _)))

/-- The CRC-32 checksum of a byte list is a 32-bit value. -/
lemma crc32_lt (l : List Nat) (h : ∀ b ∈ l, b < 256) : crc32 l < 2 ^ 32 :=
  xor_lt_u32 (crc32_foldl_lt l h _ (by norm_num)) (by norm_num)

/-- Explicit form of the 4-byte big-endian encoding. -/
lemma natToBE_four (n : Nat) :
    natToBE 4 n = [n / 256 / 256 / 256 % 256, n / 256 / 256 % 256, n / 256 % 256, n % 256] :=
  rfl

/-- Reading back the 4-byte big-endian encoding of a 32-bit value. -/
lemma u32FromBE_natToBE (n : Nat) (h : n < 2 ^ 32) : u32FromBE (natToBE 4 n) = n := by
  rw [natToBE_four]
  simp only [u32FromBE]
  omega

/-- A list of length at least 4 starts with four cons cells. -/
lemma exists_cons_four {α : Type _} (l : List α) (h : 4 ≤ l.length) :
    ∃ a b c d t, l = a :: b :: c :: d :: t := by
  match l with
  | a :: b :: c :: d :: t => exact ⟨a, b, c, d, t, rfl⟩
  | [] | [_] | [_, _] | [_, _, _] => simp at h

/-- Taking all but the last elements through four cons cells. -/
lemma take_four_cons {α : Type _} (a b c d : α) (l : List α) (k : Nat) :
    (a :: b :: c :: d :: l).take (k + 4) = a :: b :: c :: d :: l.take k := by
  have h1 : k + 4 = k + 3 + 1 := by omega
  have h2 : k + 3 = k + 2 + 1 := by omega
  have h3 : k + 2 = k + 1 + 1 := by omega
  rw [h1, List.take_succ_cons, h2, List.take_succ_cons, h3, List.take_succ_cons,
    List.take_succ_cons]

/-- Dropping through four cons cells. -/
lemma drop_four_cons {α : Type _} (a b c d : α) (l : List α) (k : Nat) :
    (a :: b :: c :: d :: l).drop (k + 4) = l.drop k := by
  have h1 : k + 4 = k + 3 + 1 := by omega
  have h2 : k + 3 = k + 2 + 1 := by omega
  have h3 : k + 2 = k + 1 + 1 := by omega
  rw [h1, List.drop_succ_cons, h2, List.drop_succ_cons, h3, List.drop_succ_cons,
    List.drop_succ_cons]

/-- `ChunkType.tryFrom` succeeds on four alphabetic bytes. -/
lemma chunkType_tryFrom_ok (b0 b1 b2 b3 : Nat)
    (ha : (isAsciiAlphabetic b0 && isAsciiAlphabetic b1 && isAsciiAlphabetic b2
        && isAsciiAlphabetic b3) = true) :
    ChunkType.tryFrom b0 b1 b2 b3 = Except.ok ⟨b0, b1, b2, b3⟩ := by
  simp only [Bool.and_eq_true] at ha
  simp [ChunkType.tryFrom, ha.1.1.1, ha.1.1.2, ha.1.2, ha.2]

/-- Characterization of `Chunk.tryFrom` on a slice whose first four bytes form
a valid chunk type and whose remainder has at least the four CRC bytes. -/
lemma tryFrom_cons_eq (b0 b1 b2 b3 : Nat) (rest : List Nat)
    (ha : (isAsciiAlphabetic b0 && isAsciiAlphabetic b1 && isAsciiAlphabetic b2
        && isAsciiAlphabetic b3) = true)
    (h4 : 4 ≤ rest.length) :
    Chunk.tryFrom (b0 :: b1 :: b2 :: b3 :: rest) =
      if crc32 (b0 :: b1 :: b2 :: b3 :: rest.take (rest.length - 4))
          = u32FromBE (rest.drop (rest.length - 4))
      then ParseOutcome.ok (Chunk.new ⟨b0, b1, b2, b3⟩ (rest.take (rest.length - 4)))
      else ParseOutcome.err ChunkError.checksumMismatch := by
  have hlt : ¬rest.length < 4 := by omega
  rw [Chunk.tryFrom, chunkType_tryFrom_ok b0 b1 b2 b3 ha]
  by_cases hc : crc32 (b0 :: b1 :: b2 :: b3 :: rest.take (rest.length - 4))
      = u32FromBE (rest.drop (rest.length - 4))
  · simp [hlt, Chunk.crc, Chunk.new, ChunkType.bytes, hc]
  · simp [hlt, Chunk.crc, Chunk.new, ChunkType.bytes, hc]

/-- Bit-5 test, low polarity: for any `n`, `n & 32 == 0` holds iff bit 5 of
`n` is clear. -/
lemma and32_beq_zero_iff (n : Nat) : ((n &&& 32 == 0) = true) ↔ Nat.testBit n 5 = false := by
  have h := Nat.and_two_pow n 5
  norm_num at h
  rw [beq_iff_eq, h]
  cases h5 : n.testBit 5 <;> simp

/-- Bit-5 test, high polarity: for any `n`, `n & 32 == 32` holds iff bit 5 of
`n` is set. -/
lemma and32_beq_32_iff (n : Nat) : ((n &&& 32 == 32) = true) ↔ Nat.testBit n 5 = true := by
  have h := Nat.and_two_pow n 5
  norm_num at h
  rw [beq_iff_eq, h]
  cases h5 : n.testBit 5 <;> simp

/-- C1: the claim states `Chunk::as_bytes` emits the 4-byte big-endian length,
the 4 chunk-type bytes, the payload, and the 4 CRC bytes.  The code instead
emits the 8-byte big-endian `usize` length, omits the chunk-type bytes
entirely, then the payload and the CRC bytes: on the chunk with type `RuSt`
and empty payload the produced bytes differ from the wire-format record. -/
theorem c1_as_bytes_is_not_the_wire_record :
    (Chunk.new ⟨82, 117, 83, 116⟩ []).as_bytes
        = [0, 0, 0, 0, 0, 0, 0, 0, 212, 132, 9, 60]
    ∧ chunkRecordSpec (Chunk.new ⟨82, 117, 83, 116⟩ [])
        = [0, 0, 0, 0, 82, 117, 83, 116, 212, 132, 9, 60]
    ∧ (Chunk.new ⟨82, 117, 83, 116⟩ []).as_bytes
        ≠ chunkRecordSpec (Chunk.new ⟨82, 117, 83, 116⟩ []) := by
  refine ⟨by decide, by decide, by decide⟩

/-- C2: the claim states `Chunk::try_from (k.as_bytes())` round-trips every
chunk `k`.  On the chunk with type `RuSt` and empty payload the serialization
starts with eight zero length bytes, so parsing reads `[0, 0, 0, 0]` as the
type tag and fails with the invalid-chunk-type error instead of returning
the chunk. -/
theorem c2_roundtrip_fails :
    Chunk.tryFrom ((Chunk.new ⟨82, 117, 83, 116⟩ []).as_bytes)
        = ParseOutcome.err ChunkError.invalidChunkType
    ∧ Chunk.tryFrom ((Chunk.new ⟨82, 117, 83, 116⟩ []).as_bytes)
        ≠ ParseOutcome.ok (Chunk.new ⟨82, 117, 83, 116⟩ []) := by
  refine ⟨by decide, by decide⟩

/-- C3: the claim states every slice of fewer than 8 bytes parses to the
too-short error.  The code returns the too-short error only below 4 bytes;
on a 5-byte slice it reaches `raw_data[..raw_data.len() - 4]` with
`raw_data.len() = 1`, where the `usize` subtraction underflows and the
indexing panics. -/
theorem c3_short_slices_panic_between_4_and_7 :
    Chunk.tryFrom [82, 117, 83, 116, 0] = ParseOutcome.panicked
    ∧ Chunk.tryFrom [82, 117, 83, 116, 0] ≠ ParseOutcome.err ChunkError.tooShort
    ∧ Chunk.tryFrom [82, 117, 83] = ParseOutcome.err ChunkError.tooShort := by
  refine ⟨by decide, by decide, by decide⟩

/-- C4: on every slice of at least 8 bytes whose first 4 bytes are all ASCII
alphabetic, `Chunk::try_from` succeeds iff the last 4 bytes, read as a
big-endian `u32`, equal the CRC-32/ISO-HDLC checksum of all preceding bytes
(type bytes then payload); on a mismatch it fails with the
checksum-mismatch error. -/
theorem c4_success_iff_checksum_matches (value : List Nat)
    (hlen : 8 ≤ value.length)
    (halpha : ∀ b ∈ value.take 4, isAsciiAlphabetic b = true) :
    ((∃ c, Chunk.tryFrom value = ParseOutcome.ok c) ↔
        u32FromBE (value.drop (value.length - 4)) = crc32 (value.take (value.length - 4)))
    ∧ (u32FromBE (value.drop (value.length - 4)) ≠ crc32 (value.take (value.length - 4)) →
        Chunk.tryFrom value = ParseOutcome.err ChunkError.checksumMismatch) := by
  obtain ⟨b0, b1, b2, b3, rest, rfl⟩ := exists_cons_four value (by omega)
  have htake4 : (b0 :: b1 :: b2 :: b3 :: rest).take 4 = [b0, b1, b2, b3] := rfl
  rw [htake4] at halpha
  have ha : (isAsciiAlphabetic b0 && isAsciiAlphabetic b1 && isAsciiAlphabetic b2
      && isAsciiAlphabetic b3) = true := by
    simp only [Bool.and_eq_true]
    exact ⟨⟨⟨halpha b0 (by simp), halpha b1 (by simp)⟩, halpha b2 (by simp)⟩,
      halpha b3 (by simp)⟩
  have hr4 : 4 ≤ rest.length := by
    simp only [List.length_cons] at hlen
    omega
  obtain ⟨k, hk⟩ : ∃ k, rest.length = k + 4 := ⟨rest.length - 4, by omega⟩
  have hlen4 : (b0 :: b1 :: b2 :: b3 :: rest).length - 4 = k + 4 := by
    simp only [List.length_cons]
    omega
  rw [hlen4, take_four_cons, drop_four_cons,
    tryFrom_cons_eq b0 b1 b2 b3 rest ha hr4,
    show rest.length - 4 = k from by omega]
  by_cases hc : crc32 (b0 :: b1 :: b2 :: b3 :: rest.take k) = u32FromBE (rest.drop k)
  · refine ⟨?_, fun hne => absurd hc.symm hne⟩
    rw [if_pos hc]
    exact ⟨fun _ => hc.symm, fun _ => ⟨_, rfl⟩⟩
  · rw [if_neg hc]
    refine ⟨⟨fun h => ?_, fun h => absurd h.symm hc⟩, fun _ => rfl⟩
    obtain ⟨c, hcc⟩ := h
    exact absurd hcc (by simp)

/-- C4 witness: the 8-byte slice `RuSt` followed by those 4 bytes' checksum
succeeds, and the characterization instance holds for it. -/
theorem c4_checksum_witness :
    ((∃ c, Chunk.tryFrom [82, 117, 83, 116, 212, 132, 9, 60] = ParseOutcome.ok c) ↔
        u32FromBE ([82, 117, 83, 116, 212, 132, 9, 60].drop
            ([82, 117, 83, 116, 212, 132, 9, 60].length - 4))
          = crc32 ([82, 117, 83, 116, 212, 132, 9, 60].take
            ([82, 117, 83, 116, 212, 132, 9, 60].length - 4)))
    ∧ (u32FromBE ([82, 117, 83, 116, 212, 132, 9, 60].drop
            ([82, 117, 83, 116, 212, 132, 9, 60].length - 4))
          ≠ crc32 ([82, 117, 83, 116, 212, 132, 9, 60].take
            ([82, 117, 83, 116, 212, 132, 9, 60].length - 4)) →
        Chunk.tryFrom [82, 117, 83, 116, 212, 132, 9, 60]
          = ParseOutcome.err ChunkError.checksumMismatch) :=
  c4_success_iff_checksum_matches [82, 117, 83, 116, 212, 132, 9, 60]
    (by decide) (by decide)

/-- C5: on every slice of at least 8 bytes whose first 4 bytes contain a
non-alphabetic byte, `Chunk::try_from` fails with the invalid-chunk-type
error, regardless of the trailing checksum bytes: the type-validity check
runs before the checksum comparison. -/
theorem c5_bad_type_reported_before_checksum (value : List Nat)
    (hlen : 8 ≤ value.length)
    (hbad : ∃ b ∈ value.take 4, isAsciiAlphabetic b = false) :
    Chunk.tryFrom value = ParseOutcome.err ChunkError.invalidChunkType := by
  obtain ⟨b0, b1, b2, b3, rest, rfl⟩ := exists_cons_four value (by omega)
  obtain ⟨b, hb, hfalse⟩ := hbad
  have htake : (b0 :: b1 :: b2 :: b3 :: rest).take 4 = [b0, b1, b2, b3] := rfl
  rw [htake] at hb
  have herr : ChunkType.tryFrom b0 b1 b2 b3 = Except.error ChunkTypeError.invalidChunkType := by
    simp only [List.mem_cons, List.not_mem_nil, or_false] at hb
    rcases hb with rfl | rfl | rfl | rfl <;> simp [ChunkType.tryFrom, hfalse]
  rw [Chunk.tryFrom, herr]

/-- C5 witness: the 8-byte slice `Ru1t` followed by the matching checksum of
those 4 bytes still fails with the invalid-chunk-type error. -/
theorem c5_bad_type_witness :
    Chunk.tryFrom [82, 117, 49, 116, 131, 79, 0, 25]
        = ParseOutcome.err ChunkError.invalidChunkType :=
  c5_bad_type_reported_before_checksum [82, 117, 49, 116, 131, 79, 0, 25]
    (by decide) ⟨49, by decide, by decide⟩

/-- C6: `Chunk::new(t, d).crc()` is the CRC-32/ISO-HDLC checksum of the type
bytes followed by the payload bytes; on the repository's own test chunk
(`RuSt` plus the 42-byte message) it is `2882656334`, and the embedded CRC
agrees with the standard check value `0xCBF43926` on `"123456789"`. -/
theorem c6_crc_over_type_then_data :
    (∀ (t : ChunkType) (d : List Nat), (Chunk.new t d).crc = crc32 (t.bytes ++ d))
    ∧ (Chunk.new ⟨82, 117, 83, 116⟩
        [84, 104, 105, 115, 32, 105, 115, 32, 119, 104, 101, 114, 101, 32, 121,
         111, 117, 114, 32, 115, 101, 99, 114, 101, 116, 32, 109, 101, 115, 115,
         97, 103, 101, 32, 119, 105, 108, 108, 32, 98, 101, 33]).crc = 2882656334
    ∧ crc32 [49, 50, 51, 52, 53, 54, 55, 56, 57] = 0xCBF43926 := by
  refine ⟨fun t d => rfl, ?_, by decide⟩
  show crc32 ([82, 117, 83, 116] ++
      [84, 104, 105, 115, 32, 105, 115, 32, 119, 104, 101, 114, 101, 32, 121,
       111, 117, 114, 32, 115, 101, 99, 114, 101, 116, 32, 109, 101, 115, 115,
       97, 103, 101, 32, 119, 105, 108, 108, 32, 98, 101, 33]) = 2882656334
  have hsplit : ([82, 117, 83, 116] ++
      [84, 104, 105, 115, 32, 105, 115, 32, 119, 104, 101, 114, 101, 32, 121,
       111, 117, 114, 32, 115, 101, 99, 114, 101, 116, 32, 109, 101, 115, 115,
       97, 103, 101, 32, 119, 105, 108, 108, 32, 98, 101, 33] : List Nat)
      = [82, 117, 83, 116, 84] ++ ([104, 105, 115, 32, 105] ++ ([115, 32, 119, 104, 101]
        ++ ([114, 101, 32, 121, 111] ++ ([117, 114, 32, 115, 101] ++ ([99, 114, 101, 116, 32]
        ++ ([109, 101, 115, 115, 97] ++ ([103, 101, 32, 119, 105]
        ++ ([108, 108, 32, 98, 101] ++ [33])))))))) := rfl
  rw [crc32, hsplit, List.foldl_append, List.foldl_append, List.foldl_append,
    List.foldl_append, List.foldl_append, List.foldl_append, List.foldl_append,
    List.foldl_append, List.foldl_append]
  have h1 : List.foldl crc32Byte 4294967295 [82, 117, 83, 116, 84] = 1849720081 := by decide
  have h2 : List.foldl crc32Byte 1849720081 [104, 105, 115, 32, 105] = 1459659464 := by decide
  have h3 : List.foldl crc32Byte 1459659464 [115, 32, 119, 104, 101] = 352290443 := by decide
  have h4 : List.foldl crc32Byte 352290443 [114, 101, 32, 121, 111] = 174442452 := by decide
  have h5 : List.foldl crc32Byte 174442452 [117, 114, 32, 115, 101] = 3533639885 := by decide
  have h6 : List.foldl crc32Byte 3533639885 [99, 114, 101, 116, 32] = 626578398 := by decide
  have h7 : List.foldl crc32Byte 626578398 [109, 101, 115, 115, 97] = 2368889247 := by decide
  have h8 : List.foldl crc32Byte 2368889247 [103, 101, 32, 119, 105] = 850995998 := by decide
  have h9 : List.foldl crc32Byte 850995998 [108, 108, 32, 98, 101] = 4033910999 := by decide
  have h10 : List.foldl crc32Byte 4033910999 [33] = 1412310961 := by decide
  rw [h1, h2, h3, h4, h5, h6, h7, h8, h9, h10]
  decide

/-- C7: for every successfully constructed `ChunkType`, the four accessors
are bit-5 tests on the corresponding tag byte (`is_safe_to_copy` with the
opposite polarity), and concretely `RuSt` is critical, not public,
reserved-bit-valid and safe-to-copy while `Rust` is not reserved-bit-valid. -/
theorem c7_accessors_are_bit5_tests (b0 b1 b2 b3 : Nat) (t : ChunkType)
    (h : ChunkType.tryFrom b0 b1 b2 b3 = Except.ok t) :
    (t.is_critical = true ↔ Nat.testBit b0 5 = false)
    ∧ (t.is_public = true ↔ Nat.testBit b1 5 = false)
    ∧ (t.is_reserved_bit_valid = true ↔ Nat.testBit b2 5 = false)
    ∧ (t.is_safe_to_copy = true ↔ Nat.testBit b3 5 = true)
    ∧ (∃ tc : ChunkType, ChunkType.fromStr [82, 117, 83, 116] = Except.ok tc
        ∧ tc.is_critical = true ∧ tc.is_public = false
        ∧ tc.is_reserved_bit_valid = true ∧ tc.is_safe_to_copy = true)
    ∧ (∃ tl : ChunkType, ChunkType.fromStr [82, 117, 115, 116] = Except.ok tl
        ∧ tl.is_reserved_bit_valid = false) := by
  rw [ChunkType.tryFrom] at h
  split at h
  · exact absurd h (by simp)
  · injection h with h'
    subst h'
    exact ⟨and32_beq_zero_iff b0, and32_beq_zero_iff b1, and32_beq_zero_iff b2,
      and32_beq_32_iff b3,
      ⟨⟨82, 117, 83, 116⟩, rfl, by decide, by decide, by decide, by decide⟩,
      ⟨⟨82, 117, 115, 116⟩, rfl, by decide⟩⟩

/-- C7 witness: the accessor characterization instantiated on the tag
`RuSt` constructed through `ChunkType::try_from`. -/
theorem c7_accessors_witness :
    ((ChunkType.mk 82 117 83 116).is_critical = true ↔ Nat.testBit 82 5 = false)
    ∧ ((ChunkType.mk 82 117 83 116).is_public = true ↔ Nat.testBit 117 5 = false)
    ∧ ((ChunkType.mk 82 117 83 116).is_reserved_bit_valid = true
        ↔ Nat.testBit 83 5 = false)
    ∧ ((ChunkType.mk 82 117 83 116).is_safe_to_copy = true ↔ Nat.testBit 116 5 = true)
    ∧ (∃ tc : ChunkType, ChunkType.fromStr [82, 117, 83, 116] = Except.ok tc
        ∧ tc.is_critical = true ∧ tc.is_public = false
        ∧ tc.is_reserved_bit_valid = true ∧ tc.is_safe_to_copy = true)
    ∧ (∃ tl : ChunkType, ChunkType.fromStr [82, 117, 115, 116] = Except.ok tl
        ∧ tl.is_reserved_bit_valid = false) :=
  c7_accessors_are_bit5_tests 82 117 83 116 ⟨82, 117, 83, 116⟩ rfl

/-- C8: `ChunkType::from_str` fails with the invalid-length error unless the
string is exactly 4 bytes; on a 4-byte string it delegates to
`ChunkType::try_from`, so a non-letter byte yields the invalid-chunk-type
error (concretely on `Ru1t`) and four letters succeed with exactly those
bytes as the tag. -/
theorem c8_from_str_characterization (s : List Nat) :
    (s.length ≠ 4 → ChunkType.fromStr s = Except.error ChunkTypeError.invalidLength)
    ∧ (∀ a b c d, s = [a, b, c, d] → ChunkType.fromStr s = ChunkType.tryFrom a b c d)
    ∧ (∀ a b c d, s = [a, b, c, d] →
        (isAsciiAlphabetic a = false ∨ isAsciiAlphabetic b = false
          ∨ isAsciiAlphabetic c = false ∨ isAsciiAlphabetic d = false) →
        ChunkType.fromStr s = Except.error ChunkTypeError.invalidChunkType)
    ∧ (∀ a b c d, s = [a, b, c, d] →
        (isAsciiAlphabetic a && isAsciiAlphabetic b && isAsciiAlphabetic c
          && isAsciiAlphabetic d) = true →
        ∃ t, ChunkType.fromStr s = Except.ok t ∧ t.bytes = s)
    ∧ ChunkType.fromStr [82, 117, 49, 116] = Except.error ChunkTypeError.invalidChunkType := by
  refine ⟨?_, ?_, ?_, ?_, rfl⟩
  · intro hlen
    match s with
    | [] | [_] | [_, _] | [_, _, _] => rfl
    | [_, _, _, _] => simp at hlen
    | _ :: _ :: _ :: _ :: _ :: _ => rfl
  · rintro a b c d rfl
    rfl
  · rintro a b c d rfl hbad
    show ChunkType.tryFrom a b c d = Except.error ChunkTypeError.invalidChunkType
    rcases hbad with h | h | h | h <;> simp [ChunkType.tryFrom, h]
  · rintro a b c d rfl ha
    exact ⟨⟨a, b, c, d⟩, chunkType_tryFrom_ok a b c d ha, rfl⟩

/-- C8 witness: the 2-byte string `Ru` fails with the invalid-length error. -/
theorem c8_from_str_witness :
    ChunkType.fromStr [82, 117] = Except.error ChunkTypeError.invalidLength :=
  (c8_from_str_characterization [82, 117]).1 (by decide)

/-- C9: `ChunkType::is_valid` returns exactly `is_reserved_bit_valid`, and the
constructible tag `Rust` witnesses that it is not unconditionally true. -/
theorem c9_is_valid_is_reserved_bit_valid :
    (∀ t : ChunkType, t.is_valid = t.is_reserved_bit_valid)
    ∧ (∃ t : ChunkType, ChunkType.fromStr [82, 117, 115, 116] = Except.ok t
        ∧ t.is_valid = false) :=
  ⟨fun _ => rfl, ⟨⟨82, 117, 115, 116⟩, rfl, by decide⟩⟩

/-- C10: for every constructible `ChunkType` `t`, the 8-byte slice made of the
4 tag bytes followed by the big-endian CRC-32 of those tag bytes parses to the
chunk with type `t` and empty payload. -/
theorem c10_minimum_record_parses (t : ChunkType)
    (ha : (isAsciiAlphabetic t.b0 && isAsciiAlphabetic t.b1 && isAsciiAlphabetic t.b2
        && isAsciiAlphabetic t.b3) = true) :
    (t.bytes ++ natToBE 4 (crc32 t.bytes)).length = 8
    ∧ Chunk.tryFrom (t.bytes ++ natToBE 4 (crc32 t.bytes))
        = ParseOutcome.ok (Chunk.new t []) := by
  obtain ⟨b0, b1, b2, b3⟩ := t
  have ha' : (isAsciiAlphabetic b0 && isAsciiAlphabetic b1 && isAsciiAlphabetic b2
      && isAsciiAlphabetic b3) = true := ha
  have h256 : crc32 [b0, b1, b2, b3] < 2 ^ 32 := by
    apply crc32_lt
    simp only [Bool.and_eq_true] at ha'
    intro b hb
    simp only [List.mem_cons, List.not_mem_nil, or_false] at hb
    rcases hb with rfl | rfl | rfl | rfl
    · exact isAsciiAlphabetic_lt _ ha'.1.1.1
    · exact isAsciiAlphabetic_lt _ ha'.1.1.2
    · exact isAsciiAlphabetic_lt _ ha'.1.2
    · exact isAsciiAlphabetic_lt _ ha'.2
  have hlen4 : (natToBE 4 (crc32 [b0, b1, b2, b3])).length = 4 := by
    rw [natToBE_four]
    rfl
  refine ⟨?_, ?_⟩
  · show ([b0, b1, b2, b3] ++ natToBE 4 (crc32 [b0, b1, b2, b3])).length = 8
    simp [hlen4]
  · show Chunk.tryFrom (b0 :: b1 :: b2 :: b3 :: natToBE 4 (crc32 [b0, b1, b2, b3]))
        = ParseOutcome.ok (Chunk.new ⟨b0, b1, b2, b3⟩ [])
    rw [tryFrom_cons_eq b0 b1 b2 b3 _ ha' (by rw [hlen4]), hlen4]
    simp [u32FromBE_natToBE _ h256]

/-- C10 witness: the minimum record for the tag `RuSt` parses to the chunk
with that type and empty payload. -/
theorem c10_minimum_record_witness :
    ((ChunkType.mk 82 117 83 116).bytes
        ++ natToBE 4 (crc32 (ChunkType.mk 82 117 83 116).bytes)).length = 8
    ∧ Chunk.tryFrom ((ChunkType.mk 82 117 83 116).bytes
        ++ natToBE 4 (crc32 (ChunkType.mk 82 117 83 116).bytes))
        = ParseOutcome.ok (Chunk.new ⟨82, 117, 83, 116⟩ []) :=
  c10_minimum_record_parses ⟨82, 117, 83, 116⟩ (by decide)

end Pngme
